import Mathlib

/-!
# Verification of the Clarity-Grid ingest/index/query pipeline

Shallow embedding of the core pipeline of the Clarity-Grid chatbot
repository:

* `feature_to_rag_content` — the Document canonicalizer
  (`free_streaming_processor.py`, lines 24–71);
* `stream_geojson_features` — the streaming GeoJSON feature parser
  (`free_streaming_processor.py`, lines 73–130);
* `process_streaming` — the batch-embedding pipeline
  (`free_streaming_processor.py`, lines 132–193);
* `save_batch_results` / `combine_batches` — checkpointing and the
  index-builder merge (`free_streaming_processor.py`, lines 195–267);
* `retrieve_documents` — the retrieval engine (`app.py`, lines 124–156).

Python values that can appear in a GeoJSON `properties` mapping are
modelled by `PValue` (strings, integers, null); floating-point numbers
are modelled by exact numbers (`ℚ` for the derived kilometre length, `ℤ`
for embedding-vector components), a standard idealization — no claim
below depends on binary floating-point rounding.  Python exceptions are
modelled with `Except`; the external libraries `json` (a parser oracle),
`sentence_transformers` (an abstract embedding function) and `faiss`
(modelled from its documented exact-search semantics, including the `-1`
padding of labels when `k` exceeds the number of stored vectors) appear
as explicit parameters or small definitional models, each noted at its
definition.
-/

namespace ClarityGrid

/-- A Python value stored in a GeoJSON `properties` mapping: a string, an
integer (numeric fields; exact model of the values the claims use), or
`null`/`None`. -/
inductive PValue where
  | vStr (s : String)
  | vInt (n : Int)
  | vNone
  deriving DecidableEq, Repr

/-- Python `str(v)` / f-string interpolation of a property value. -/
def PValue.pyStr : PValue → String
  | .vStr s => s
  | .vInt n => toString n
  | .vNone => "None"

/-- A parsed GeoJSON feature as the canonicalizer sees it: the
`properties` mapping (absent when the JSON object has no `properties`
key, mirroring `feature.get('properties', {})`), plus whatever other
top-level members the object carries (geometry, type tag, …), which
`feature_to_rag_content` in `free_streaming_processor.py` never reads. -/
structure Feature where
  properties : Option (List (String × PValue))
  rest : List (String × PValue)
  deriving DecidableEq, Repr

/-- `props.get(key, default)` on the (unique-key) Python dict. -/
def pget (props : List (String × PValue)) (key : String) (dflt : PValue) : PValue :=
  match props.lookup key with
  | some v => v
  | none => dflt

/-- The Document produced by the canonicalizer: the dict returned at
`free_streaming_processor.py:61-71`. -/
structure RagDoc where
  id : PValue
  content : String
  voltage : PValue
  voltage_class : PValue
  owner : PValue
  status : PValue
  substations : List PValue
  length_km : Option ℚ
  line_type : PValue
  deriving DecidableEq, Repr

/-- One decimal digit of a positive length in kilometres, given the raw
length in metres: models CPython's `f"{length/1000:.1f}"` by exact
round-half-to-even on the rational `n/100` tenths value. -/
def formatKm1 (n : Int) : String :=
  let q := n / 100
  let r := n % 100
  let tenths : Int :=
    if 2 * r > 100 then q + 1
    else if 2 * r < 100 then q
    else if q % 2 = 0 then q else q + 1
  toString (tenths / 10) ++ "." ++ toString (tenths % 10)

/-- `FreeStreamingProcessor.feature_to_rag_content`
(`free_streaming_processor.py:24-71`): field resolution with defaults,
conditional sentence fragments joined by single spaces, and the sidecar
fields of the returned dict. -/
def feature_to_rag_content (feature : Feature) : RagDoc :=
  let props := feature.properties.getD []
  let line_id := pget props "ID"
    (.vStr ("OBJ_" ++ (pget props "OBJECTID" (.vStr "Unknown")).pyStr))
  let line_type := pget props "TYPE" (.vStr "Transmission Line")
  let status := pget props "STATUS" (.vStr "Unknown")
  let voltage := pget props "VOLTAGE" (.vStr "Unknown")
  let volt_class := pget props "VOLT_CLASS" (.vStr "Unknown")
  let owner := pget props "OWNER" (.vStr "Not Available")
  let sub_1 := pget props "SUB_1" (.vStr "Unknown")
  let sub_2 := pget props "SUB_2" (.vStr "Unknown")
  let length := pget props "SHAPE__Len" (.vStr "Unknown")
  let part1 := ["Transmission Line " ++ line_id.pyStr ++ " is a " ++
      line_type.pyStr ++ " electrical power line.",
    "The line status is " ++ status.pyStr ++ "."]
  let part2 :=
    if voltage ≠ .vStr "Unknown" ∧ voltage ≠ .vInt (-999999) then
      ["It operates at " ++ voltage.pyStr ++ " volts in the " ++
        volt_class.pyStr ++ " voltage class."]
    else
      ["It operates in the " ++ volt_class.pyStr ++ " voltage class."]
  let part3 :=
    if owner ≠ .vStr "NOT AVAILABLE" ∧ owner ≠ .vStr "Unknown" then
      ["The line is owned by " ++ owner.pyStr ++ "."]
    else []
  let part4 :=
    if sub_1 ≠ .vStr "Unknown" ∧ sub_2 ≠ .vStr "Unknown" then
      ["It connects " ++ sub_1.pyStr ++ " substation to " ++ sub_2.pyStr ++
        " substation."]
    else []
  let part5 :=
    match length with
    | .vInt n => if n > 0 then
        ["The transmission line is approximately " ++ formatKm1 n ++
          " kilometers long."]
      else []
    | _ => []
  let part6 := ["This is electrical grid infrastructure for power transmission and control."]
  let content := String.intercalate " "
    (part1 ++ part2 ++ part3 ++ part4 ++ part5 ++ part6)
  { id := line_id
    content := content
    voltage := voltage
    voltage_class := volt_class
    owner := owner
    status := status
    substations := [sub_1, sub_2]
    length_km := match length with
      | .vInt n => if n > 0 then some ((n : ℚ) / 1000) else none
      | _ => none
    line_type := line_type }

/-- The property keys `feature_to_rag_content` reads. -/
def ragKeys : List String :=
  ["ID", "OBJECTID", "TYPE", "STATUS", "VOLTAGE", "VOLT_CLASS",
   "OWNER", "SUB_1", "SUB_2", "SHAPE__Len"]

/-! ## The streaming feature parser (`stream_geojson_features`) -/

/-- Python's default `str.strip()` whitespace set. -/
def isPySpace (c : Char) : Bool :=
  c == ' ' || c == '\t' || c == '\n' || c == '\r' ||
    c == '\x0b' || c == '\x0c'

/-- Python `s.strip()`: remove leading and trailing whitespace. -/
def pyStrip (s : String) : String :=
  String.mk (((s.data.dropWhile isPySpace).reverse.dropWhile isPySpace).reverse)

/-- Python `s.startswith(pat)`. -/
def pyStartsWith (s pat : String) : Bool :=
  pat.data.isPrefixOf s.data

/-- Substring test on character lists: is `pat` an infix of `l`?
Models Python's `pat in line`. -/
def containsAux (pat : List Char) : List Char → Bool
  | [] => pat.isEmpty
  | c :: cs => pat.isPrefixOf (c :: cs) || containsAux pat cs

/-- Python `pat in s` (substring containment). -/
def strContains (s pat : String) : Bool :=
  containsAux pat.data s.data

/-- `s.count c` on a Python string. -/
def countChar (c : Char) (s : String) : Nat :=
  s.data.count c

/-- `line.count('{') - line.count('}')`, as the Python `int` it is. -/
def braceDelta (line : String) : Int :=
  (countChar '{' line : Int) - (countChar '}' line : Int)

/-- Python `s.rstrip(',')`: drop every trailing comma. -/
def rstripComma (s : String) : String :=
  String.mk ((s.data.reverse.dropWhile (· == ',')).reverse)

/-- Loop state of `stream_geojson_features`
(`free_streaming_processor.py:78-128`).  `in_features`, `feature_count`,
`current_feature` and `brace_count` are the Python locals; `emitted` is
the sequence of features the generator has yielded so far, and
`parseFaults` is ghost instrumentation counting executions of the
`except json.JSONDecodeError: pass` branch (line 123-125) — the Python
function itself keeps no such counter. -/
structure StreamState where
  in_features : Bool
  feature_count : Nat
  current_feature : String
  brace_count : Int
  emitted : List Feature
  parseFaults : Nat
  deriving DecidableEq, Repr

/-- One pass of the `for line_num, line in enumerate(f)` loop of
`stream_geojson_features`, with the `break` on a `]` line modelled by
returning the state without consuming the remaining lines.  `parse` is
the `json.loads` oracle (the JSON library is external to the
repository): `some` on success, `none` for a `JSONDecodeError`. -/
def streamLoop (parse : String → Option Feature) :
    StreamState → List String → StreamState
  | st, [] => st
  | st, rawLine :: rest =>
    let line := pyStrip rawLine
    if strContains line "\"features\"" then
      streamLoop parse { st with in_features := true } rest
    else if !st.in_features then
      streamLoop parse st rest
    else if line == "[" then
      streamLoop parse st rest
    else if pyStartsWith line "]" then
      st
    else
      let st1 :=
        if pyStartsWith line "\x7b" then
          { st with current_feature := line, brace_count := braceDelta line }
        else if st.current_feature ≠ "" then
          { st with current_feature := st.current_feature ++ " " ++ line,
                    brace_count := st.brace_count + braceDelta line }
        else st
      let st2 :=
        if st1.current_feature ≠ "" ∧ st1.brace_count = 0 then
          let feature_str := pyStrip (rstripComma st1.current_feature)
          let st' :=
            match parse feature_str with
            | some f =>
              { st1 with emitted := st1.emitted ++ [f],
                         feature_count := st1.feature_count + 1 }
            | none =>
              { st1 with parseFaults := st1.parseFaults + 1 }
          { st' with current_feature := "", brace_count := 0 }
        else st1
      streamLoop parse st2 rest

/-- `stream_geojson_features` on the (stripped) lines of the input file:
initial state as set up at `free_streaming_processor.py:79-82`, then the
line loop. -/
def stream_geojson_features (parse : String → Option Feature)
    (lines : List String) : StreamState :=
  streamLoop parse ⟨false, 0, "", 0, [], 0⟩ lines

/-- The counts the function surfaces at stream end: the single
`feature_count` printed at `free_streaming_processor.py:130`.  The
generator's return value to its caller is the yielded feature sequence;
no skipped-record count exists anywhere in the function. -/
def reportedCounts (st : StreamState) : List Nat :=
  [st.feature_count]

/-! ## Checkpoints, `save_batch_results` and `combine_batches` -/

/-- An embedding vector.  Components are modelled as exact integers
(the claims below never depend on fractional component values, only on
vector counts, dimensions and distance comparisons, all of which are
exact). -/
abbrev Vec := List ℤ

/-- One checkpoint pair on disk: `batch_{n}_embeddings.npy` together
with `batch_{n}_metadata.json` (`save_batch_results` always writes the
two files together, with equal record counts). -/
structure Checkpoint where
  ordinal : Nat
  embs : List Vec
  metas : List RagDoc
  deriving DecidableEq, Repr

/-- Filename of a checkpoint's embedding file
(`free_streaming_processor.py:201`). -/
def embFileName (n : Nat) : String :=
  "batch_" ++ toString n ++ "_embeddings.npy"

/-- Filename of a checkpoint's metadata file
(`free_streaming_processor.py:205`). -/
def metaFileName (n : Nat) : String :=
  "batch_" ++ toString n ++ "_metadata.json"

/-- Lexicographic comparison of character lists by code point — the
order Python's `sorted` uses on `str`. -/
def charListLe : List Char → List Char → Bool
  | [], _ => true
  | _ :: _, [] => false
  | a :: as, b :: bs =>
    if a.toNat < b.toNat then true
    else if b.toNat < a.toNat then false
    else charListLe as bs

/-- Python string comparison `a <= b` (lexicographic by code point). -/
def strLe (a b : String) : Bool :=
  charListLe a.data b.data

/-- Insert into a sorted list, after existing entries that compare no
greater (the stable placement Python's `sorted` gives). -/
def insertLe (le : α → α → Bool) (a : α) : List α → List α
  | [] => [a]
  | b :: bs => if le a b then a :: b :: bs else b :: insertLe le a bs

/-- Insertion sort by a boolean comparison: models Python's
`sorted(...)`. -/
def sortLe (le : α → α → Bool) : List α → List α
  | [] => []
  | a :: as => insertLe le a (sortLe le as)

/-- `sorted(glob.glob("batch_*_embeddings.npy"))`
(`free_streaming_processor.py:217`): the on-disk checkpoints in
lexicographic order of their embedding filenames. -/
def embSorted (store : List Checkpoint) : List Checkpoint :=
  sortLe (fun a b => strLe (embFileName a.ordinal) (embFileName b.ordinal)) store

/-- `sorted(glob.glob("batch_*_metadata.json"))`
(`free_streaming_processor.py:218`). -/
def metaSorted (store : List Checkpoint) : List Checkpoint :=
  sortLe (fun a b => strLe (metaFileName a.ordinal) (metaFileName b.ordinal)) store

/-- The FAISS `IndexFlatL2` after `index.add(final_embeddings)`: an
exact (exhaustive) L2 index storing its dimension and the full ordered
vector list; `ntotal` is `vecs.length`.  Modelled from FAISS's
documented flat-index semantics (FAISS is an external library). -/
structure FIndex where
  d : Nat
  vecs : List Vec
  deriving DecidableEq, Repr

/-- `FreeStreamingProcessor.combine_batches`
(`free_streaming_processor.py:211-267`), data part: pair the two sorted
file listings positionally (the `zip` at line 226), concatenate the
loaded embedding arrays (`np.vstack`, line 243) and metadata lists
(`extend`, line 236), and build the flat index over the matrix.
`none` models the `ValueError` that `np.vstack` raises on an empty or
ragged input (no rows at all, or rows of unequal width) — a failed
build. -/
def combine_batches (store : List Checkpoint) :
    Option (FIndex × List RagDoc) :=
  let pairs := (embSorted store).zip (metaSorted store)
  let all_embeddings := pairs.map (fun p => p.1.embs)
  let all_metadata := (pairs.map (fun p => p.2.metas)).flatten
  let final_embeddings := all_embeddings.flatten
  match final_embeddings with
  | [] => none
  | v :: _ =>
    if final_embeddings.all (fun w => w.length = v.length) then
      some ({ d := v.length, vecs := final_embeddings }, all_metadata)
    else none

/-- The order in which `combine_batches` assembles batches into the
final matrix: the ordinals of the checkpoints in embedding-filename
order. -/
def mergeOrder (store : List Checkpoint) : List Nat :=
  (embSorted store).map (fun cp => cp.ordinal)

/-- Externally visible effects of `combine_batches`, in program order. -/
inductive MergeEv where
  | loadBatch (embOrdinal metaOrdinal : Nat)
  | removeFile (name : String)
  | writeIndex (file : String)
  | writeMetadata (file : String)
  deriving DecidableEq, Repr

/-- Is this effect an `os.remove` of a checkpoint file? -/
def MergeEv.isRemove : MergeEv → Bool
  | .removeFile _ => true
  | _ => false

/-- Is this effect a write of a final artifact? -/
def MergeEv.isWrite : MergeEv → Bool
  | .writeIndex _ => true
  | .writeMetadata _ => true
  | _ => false

/-- The effect trace of `combine_batches`: per loop iteration
(lines 226-240) the batch pair is loaded and then both its files are
removed at once (`os.remove`, lines 239-240); only after the loop, and
only if `np.vstack` succeeds, are the final index and metadata written
(lines 254-257).  No reload/verification of the written artifacts
occurs anywhere in the function. -/
def combineTrace (store : List Checkpoint) : List MergeEv :=
  let pairs := (embSorted store).zip (metaSorted store)
  let loop := (pairs.map (fun p =>
    [MergeEv.loadBatch p.1.ordinal p.2.ordinal,
     MergeEv.removeFile (embFileName p.1.ordinal),
     MergeEv.removeFile (metaFileName p.2.ordinal)])).flatten
  let finish :=
    match combine_batches store with
    | some _ => [MergeEv.writeIndex "free_electrical_grid_index.faiss",
                 MergeEv.writeMetadata "free_electrical_grid_metadata.json"]
    | none => []
  loop ++ finish

/-- The deletion discipline the spec claims for `combine_batches`:
every checkpoint removal happens strictly after both final-artifact
writes. -/
def removesAfterWrites (tr : List MergeEv) : Prop :=
  ∀ i j : Fin tr.length, (tr.get i).isRemove → (tr.get j).isWrite → j < i

instance (tr : List MergeEv) : Decidable (removesAfterWrites tr) := by
  unfold removesAfterWrites; infer_instance

/-! ## The batch-embedding pipeline (`process_streaming`) -/

/-- Overwrite-or-create the checkpoint file pair `batch_{n}_*`: the
effect of `np.save` / `json.dump` at `free_streaming_processor.py:202`
and `206-207` on a directory that may already hold a pair with the same
number. -/
def writeCheckpoint (disk : List Checkpoint) (n : Nat) (embs : List Vec)
    (metas : List RagDoc) : List Checkpoint :=
  (disk.filter (fun cp => cp.ordinal ≠ n)) ++ [⟨n, embs, metas⟩]

/-- `FreeStreamingProcessor.save_batch_results`
(`free_streaming_processor.py:195-209`): the batch number is
`count // 1000 + 1` — the divisor is the hard-coded literal `1000`, not
the configured batch size.  The `texts` argument is accepted and never
persisted, as in the source. -/
def save_batch_results (disk : List Checkpoint) (embeddings : List Vec)
    (_texts : List String) (metadata : List RagDoc) (count : Nat) :
    List Checkpoint :=
  writeCheckpoint disk (count / 1000 + 1) embeddings metadata

/-- Loop state of `process_streaming`
(`free_streaming_processor.py:141-143`), plus the checkpoint directory
it writes into. -/
structure PipeState where
  all_texts : List String
  all_metadata : List RagDoc
  processed_count : Nat
  disk : List Checkpoint
  deriving Repr

/-- One iteration of the `for feature in ...` loop of
`process_streaming` (`free_streaming_processor.py:150-173`).  `encode`
models `self.model.encode` — the external embedding provider, a
deterministic function of the batch texts whose failure (a raised
exception) is `Except.error`.  A failure inside the batch block is
caught by the per-feature `except` at line 171, which merely logs and
continues: the buffered batch is kept, not cleared and not recorded as
failed. -/
def processStep (encode : List String → Except Unit (List Vec))
    (batch_size : Nat) (st : PipeState) (f : Feature) : PipeState :=
  let rag := feature_to_rag_content f
  let texts := st.all_texts ++ [rag.content]
  let metas := st.all_metadata ++ [rag]
  let processed := st.processed_count + 1
  if batch_size ≤ texts.length then
    match encode texts with
    | .ok embs =>
      { all_texts := [], all_metadata := [],
        processed_count := processed,
        disk := save_batch_results st.disk embs texts metas processed }
    | .error _ =>
      { all_texts := texts, all_metadata := metas,
        processed_count := processed, disk := st.disk }
  else
    { all_texts := texts, all_metadata := metas,
      processed_count := processed, disk := st.disk }

/-- `FreeStreamingProcessor.process_streaming`
(`free_streaming_processor.py:132-193`) up to the merge: stream the
features, batch-encode and checkpoint them, then encode the final
partial batch *outside any try block* (lines 176-179), so a provider
failure there propagates and aborts the run.  On success it returns the
checkpoint directory and the processed count; the subsequent merge is
`combine_batches` applied to that directory. -/
def process_streaming (encode : List String → Except Unit (List Vec))
    (batch_size : Nat) (features : List Feature) :
    Except Unit (List Checkpoint × Nat) :=
  let st := features.foldl (processStep encode batch_size) ⟨[], [], 0, []⟩
  match st.all_texts with
  | [] => .ok (st.disk, st.processed_count)
  | _ :: _ =>
    match encode st.all_texts with
    | .ok embs =>
      .ok (save_batch_results st.disk embs st.all_texts st.all_metadata
            st.processed_count, st.processed_count)
    | .error e => .error e

/-- An embedding provider that fails on every call. -/
def alwaysFailEncode : List String → Except Unit (List Vec) :=
  fun _ => .error ()

instance {ε α : Type} [DecidableEq ε] [DecidableEq α] :
    DecidableEq (Except ε α) := fun x y =>
  match x, y with
  | .ok a, .ok b =>
    if h : a = b then .isTrue (by rw [h]) else .isFalse (by simp [h])
  | .ok _, .error _ => .isFalse (by simp)
  | .error _, .ok _ => .isFalse (by simp)
  | .error e, .error f =>
    if h : e = f then .isTrue (by rw [h]) else .isFalse (by simp [h])

/-! ## The retrieval engine (`retrieve_documents`, `app.py:124-156`) -/

/-- Squared Euclidean distance between two vectors of equal length (the
metric of `IndexFlatL2`). -/
def sqDist (a b : Vec) : ℤ :=
  ((a.zip b).map (fun p => (p.1 - p.2) ^ 2)).sum

/-- The stored positions ranked as FAISS returns them: ascending squared
L2 distance to the query, ties broken by ascending position. -/
def rankPositions (vecs : List Vec) (q : Vec) : List Nat :=
  sortLe
    (fun i j =>
      let di := sqDist q (vecs.getD i [])
      let dj := sqDist q (vecs.getD j [])
      decide (di < dj) || (decide (di = dj) && decide (i ≤ j)))
    (List.range vecs.length)

/-- `index.search(query_vec, k)` on a flat L2 index, modelled from
FAISS's documented semantics (FAISS is an external library): the call
raises if the query dimension differs from the index dimension
(`Except.error`); otherwise it returns exactly `k` labels — the stored
positions in ascending-distance order, padded with the sentinel label
`-1` when `k` exceeds `ntotal`. -/
def faissSearch (idx : FIndex) (q : Vec) (k : Nat) : Except Unit (List Int) :=
  if q.length ≠ idx.d then .error ()
  else
    .ok ((((rankPositions idx.vecs q).map Int.ofNat) ++
      List.replicate (k - idx.vecs.length) (-1)).take k)

/-- Python list subscription `l[i]` with an `int` index: non-negative
indices are bounds-checked from the front, negative indices wrap from
the back, anything else raises `IndexError` (`none`). -/
def pyGetIdx (l : List α) (i : Int) : Option α :=
  if 0 ≤ i then l[i.toNat]?
  else if -(l.length : Int) ≤ i then l[(i + l.length).toNat]?
  else none

/-- The result-collection loop of `retrieve_documents`
(`app.py:143-149`): for each returned label, if `idx < len(texts)` the
entry `texts[idx]['content']` is appended — note that FAISS's `-1`
padding labels satisfy this comparison and select `texts[-1]`, the last
metadata entry, via Python's negative indexing.  An `IndexError`
(`pyGetIdx = none`) propagates as an exception. -/
def gatherDocs (texts : List RagDoc) : List Int → Except Unit (List String)
  | [] => .ok []
  | idx :: rest =>
    if idx < (texts.length : Int) then
      match pyGetIdx texts idx with
      | some doc => (gatherDocs texts rest).map (fun tail => doc.content :: tail)
      | none => .error ()
    else gatherDocs texts rest

/-- The process-wide retrieval state loaded at `app.py:44-86`:
`RAG_AVAILABLE`, the loaded index, the loaded metadata list `texts`,
and the query embedding model (an external deterministic function from
query text to vector). -/
structure AppState where
  ragAvailable : Bool
  index : FIndex
  texts : List RagDoc
  embed : String → Vec

/-- The body of the `try` block of `retrieve_documents`
(`app.py:129-152`): embed the query, search the index, collect the
results; any raised exception is `Except.error`. -/
def retrieveE (st : AppState) (query : String) (k : Nat) :
    Except Unit (List String) := do
  let labels ← faissSearch st.index (st.embed query) k
  gatherDocs st.texts labels

/-- `retrieve_documents(query, k=5)` (`app.py:124-156`): returns `[]`
when `RAG_AVAILABLE` is false; the blanket `except` at line 154 turns
every internal exception into a logged `[]`. -/
def retrieve_documents (st : AppState) (query : String) (k : Nat := 5) :
    List String :=
  if !st.ragAvailable then []
  else
    match retrieveE st query k with
    | .ok docs => docs
    | .error _ => []

/-! ## Concrete fixtures used in witnesses and counterexamples -/

/-- The Record `{id:"A", voltage:230, owner:"X"}` of the spec's concrete
scenario, as a GeoJSON feature. -/
def recA : Feature :=
  ⟨some [("ID", .vStr "A"), ("VOLTAGE", .vInt 230), ("OWNER", .vStr "X")], []⟩

/-- The Record `{id:"B", voltage:"Unknown"}` — its `OWNER` field is
absent. -/
def recB : Feature := ⟨some [("ID", .vStr "B"), ("VOLTAGE", .vStr "Unknown")], []⟩

/-- The Record `{id:"C", owner:"NOT AVAILABLE"}`. -/
def recC : Feature := ⟨some [("ID", .vStr "C"), ("OWNER", .vStr "NOT AVAILABLE")], []⟩

/-- A minimal document carrying only an `ID` property. -/
def docOf (s : String) : RagDoc :=
  feature_to_rag_content ⟨some [("ID", .vStr s)], []⟩

/-- A `json.loads` oracle for the synthetic fault-tolerance stream:
accepts exactly the buffer `{valid}` and rejects everything else. -/
def scenarioParse : String → Option Feature :=
  fun s => if s = "{valid}" then some ⟨some [("ID", .vStr "ok")], []⟩ else none

/-- A synthetic GeoJSON input stream: 100 valid single-line records and
one malformed record in the middle of the `features` array. -/
def scenarioLines : List String :=
  ["\x7b", "\"type\": \"FeatureCollection\",", "\"features\": ["] ++
    List.replicate 50 "{valid}," ++ ["{broken},"] ++
    List.replicate 50 "{valid}," ++ ["]", "\x7d"]

/-- A checkpoint directory of ten batches with ordinal numbers 2–11 —
exactly what a clean `process_streaming` run over 10 000 records at the
default batch size 1000 leaves behind. -/
def c1store : List Checkpoint :=
  (List.range' 2 10).map (fun n => ⟨n, [[(n : ℤ)]], [docOf (toString n)]⟩)

/-- A single-checkpoint directory. -/
def c5store : List Checkpoint := [⟨1, [[1]], [docOf "a"]⟩]

/-- An embedding provider that always succeeds, mapping each text to the
1-dimensional zero vector (length-preserving, as the provider interface
requires). -/
def encodeZero : List String → Except Unit (List Vec) :=
  fun ts => .ok (ts.map (fun _ => [0]))

/-- A loaded retrieval state with three indexed vectors and three
metadata entries, dimension 1. -/
def stC3 : AppState :=
  { ragAvailable := true
    index := { d := 1, vecs := [[0], [1], [2]] }
    texts := [docOf "a", docOf "b", docOf "c"]
    embed := fun _ => [0] }

/-- A retrieval state whose query embedder produces 1-dimensional
vectors while the loaded index has dimension 2 — a model/dimension
mismatch. -/
def stC9 : AppState :=
  { ragAvailable := true
    index := { d := 2, vecs := [[0, 0]] }
    texts := [docOf "a"]
    embed := fun _ => [0] }

/-- Two features that agree on every property key the canonicalizer
reads but differ in junk properties and in their non-`properties`
members. -/
def featWitnessA : Feature :=
  ⟨some [("ID", .vStr "W"), ("JUNK", .vInt 7)], [("geometry", .vStr "blob")]⟩

/-- See `featWitnessA`. -/
def featWitnessB : Feature :=
  ⟨some [("OTHER", .vNone), ("ID", .vStr "W")], []⟩

/-- Alignment of a checkpoint directory: every batch pair holds as many
vectors as Documents (what `save_batch_results` always produces, since
the provider returns one vector per text). -/
def diskWF (disk : List Checkpoint) : Prop :=
  ∀ cp ∈ disk, cp.embs.length = cp.metas.length

/-! ## Helper lemmas -/

theorem insertLe_perm (le : α → α → Bool) (a : α) :
    ∀ l : List α, (insertLe le a l).Perm (a :: l)
  | [] => List.Perm.refl _
  | b :: bs => by
    unfold insertLe
    split
    · exact List.Perm.refl _
    · exact ((insertLe_perm le a bs).cons b).trans (List.Perm.swap a b bs)

theorem sortLe_perm (le : α → α → Bool) :
    ∀ l : List α, (sortLe le l).Perm l
  | [] => List.Perm.refl _
  | a :: as =>
    (insertLe_perm le a (sortLe le as)).trans ((sortLe_perm le as).cons a)

theorem embSorted_perm (store : List Checkpoint) :
    (embSorted store).Perm store :=
  sortLe_perm _ store

theorem metaSorted_perm (store : List Checkpoint) :
    (metaSorted store).Perm store :=
  sortLe_perm _ store

theorem pyGetIdx_mem {l : List α} {i : Int} {a : α}
    (h : pyGetIdx l i = some a) : a ∈ l := by
  unfold pyGetIdx at h
  split at h
  · obtain ⟨hlt, rfl⟩ := List.getElem?_eq_some_iff.mp h
    exact List.getElem_mem hlt
  · split at h
    · obtain ⟨hlt, rfl⟩ := List.getElem?_eq_some_iff.mp h
      exact List.getElem_mem hlt
    · exact absurd h (by simp)

theorem gatherDocs_ok (texts : List RagDoc) :
    ∀ (labels : List Int) (res : List String),
      gatherDocs texts labels = .ok res →
      res.length ≤ labels.length ∧ ∀ s ∈ res, ∃ d ∈ texts, s = d.content
  | [], res, h => by
    simp only [gatherDocs] at h
    cases h
    simp
  | idx :: rest, res, h => by
    simp only [gatherDocs] at h
    split at h
    · cases hpy : pyGetIdx texts idx with
      | none => rw [hpy] at h; cases h
      | some doc =>
        rw [hpy] at h
        cases hrest : gatherDocs texts rest with
        | error e => rw [hrest] at h; cases h
        | ok tail =>
          rw [hrest] at h
          cases h
          obtain ⟨hlen, hmem⟩ := gatherDocs_ok texts rest tail hrest
          refine ⟨by simpa using Nat.succ_le_succ hlen, ?_⟩
          intro s hs
          rcases List.mem_cons.mp hs with rfl | hs
          · exact ⟨doc, pyGetIdx_mem hpy, rfl⟩
          · exact hmem s hs
    · obtain ⟨hlen, hmem⟩ := gatherDocs_ok texts rest res h
      exact ⟨Nat.le_succ_of_le hlen, hmem⟩

theorem streamLoop_emitted_eq_count (parse : String → Option Feature) :
    ∀ (lines : List String) (st : StreamState),
      st.emitted.length = st.feature_count →
      (streamLoop parse st lines).emitted.length =
        (streamLoop parse st lines).feature_count
  | [], st, h => h
  | rawLine :: rest, st, h => by
    simp only [streamLoop]
    repeat' split
    all_goals first
      | exact h
      | exact streamLoop_emitted_eq_count parse rest _ h
      | (apply streamLoop_emitted_eq_count parse rest; simp [h])

theorem processStep_alwaysFail (batch_size : Nat) (st : PipeState) (f : Feature) :
    processStep alwaysFailEncode batch_size st f =
      { all_texts := st.all_texts ++ [(feature_to_rag_content f).content],
        all_metadata := st.all_metadata ++ [feature_to_rag_content f],
        processed_count := st.processed_count + 1,
        disk := st.disk } := by
  unfold processStep alwaysFailEncode
  repeat' split
  all_goals first | rfl | simp_all

theorem foldl_alwaysFail_texts (batch_size : Nat) :
    ∀ (features : List Feature) (st : PipeState),
      (features.foldl (processStep alwaysFailEncode batch_size) st).all_texts =
        st.all_texts ++ features.map (fun f => (feature_to_rag_content f).content)
  | [], st => by simp
  | f :: fs, st => by
    rw [List.foldl_cons, processStep_alwaysFail,
      foldl_alwaysFail_texts batch_size fs]
    simp

theorem writeCheckpoint_wf {disk : List Checkpoint} {n : Nat} {embs : List Vec}
    {metas : List RagDoc} (hd : diskWF disk) (he : embs.length = metas.length) :
    diskWF (writeCheckpoint disk n embs metas) := by
  intro cp hcp
  rcases List.mem_append.mp hcp with hmem | hmem
  · exact hd cp (List.mem_of_mem_filter hmem)
  · rcases List.mem_singleton.mp hmem with rfl
    exact he

/-- The loop invariant of `process_streaming`: the text and metadata
buffers stay aligned and every checkpoint written so far is aligned. -/
def pipeInv (st : PipeState) : Prop :=
  st.all_texts.length = st.all_metadata.length ∧ diskWF st.disk

theorem processStep_inv {encode : List String → Except Unit (List Vec)}
    (henc : ∀ ts r, encode ts = .ok r → r.length = ts.length)
    (batch_size : Nat) {st : PipeState} (hinv : pipeInv st) (f : Feature) :
    pipeInv (processStep encode batch_size st f) := by
  obtain ⟨hbuf, hdisk⟩ := hinv
  simp only [processStep]
  split
  · cases hcall : encode (st.all_texts ++ [(feature_to_rag_content f).content]) with
    | ok embs =>
      refine ⟨by simp, ?_⟩
      unfold save_batch_results
      exact writeCheckpoint_wf hdisk (by simp [henc _ _ hcall, hbuf])
    | error e => exact ⟨by simp [hbuf], hdisk⟩
  · exact ⟨by simp [hbuf], hdisk⟩

theorem foldl_inv {encode : List String → Except Unit (List Vec)}
    (henc : ∀ ts r, encode ts = .ok r → r.length = ts.length)
    (batch_size : Nat) :
    ∀ (features : List Feature) (st : PipeState), pipeInv st →
      pipeInv (features.foldl (processStep encode batch_size) st)
  | [], _, hinv => hinv
  | f :: fs, _, hinv =>
    foldl_inv henc batch_size fs _ (processStep_inv henc batch_size hinv f)

theorem process_streaming_wf {encode : List String → Except Unit (List Vec)}
    (henc : ∀ ts r, encode ts = .ok r → r.length = ts.length)
    {batch_size : Nat} {features : List Feature} {disk : List Checkpoint}
    {count : Nat}
    (hrun : process_streaming encode batch_size features = .ok (disk, count)) :
    diskWF disk := by
  simp only [process_streaming] at hrun
  have hinv := foldl_inv henc batch_size features ⟨[], [], 0, []⟩
    ⟨rfl, by intro cp hcp; cases hcp⟩
  set st := features.foldl (processStep encode batch_size) ⟨[], [], 0, []⟩ with hst
  obtain ⟨hbuf, hdisk⟩ := hinv
  split at hrun
  · cases hrun; exact hdisk
  · rename_i ts t hts
    cases hcall : encode st.all_texts with
    | ok embs =>
      rw [hcall] at hrun
      cases hrun
      unfold save_batch_results
      exact writeCheckpoint_wf hdisk (by simp [henc _ _ hcall, hbuf])
    | error e => rw [hcall] at hrun; cases hrun

theorem combine_batches_len {store : List Checkpoint} (hwf : diskWF store)
    {idx : FIndex} {md : List RagDoc}
    (hbuild : combine_batches store = some (idx, md)) :
    md.length = idx.vecs.length := by
  simp only [combine_batches] at hbuild
  have hlen : (embSorted store).length = (metaSorted store).length :=
    (embSorted_perm store).length_eq.trans (metaSorted_perm store).length_eq.symm
  split at hbuild
  · cases hbuild
  · rename_i v rest hflat
    split at hbuild
    · rw [Option.some.injEq, Prod.mk.injEq] at hbuild
      obtain ⟨hidx, hmd⟩ := hbuild
      have hfst : ((embSorted store).zip (metaSorted store)).map Prod.fst =
          embSorted store :=
        List.map_fst_zip _ _ (le_of_eq hlen)
      have hsnd : ((embSorted store).zip (metaSorted store)).map Prod.snd =
          metaSorted store :=
        List.map_snd_zip _ _ (le_of_eq hlen.symm)
      have hembs : (((embSorted store).zip (metaSorted store)).map
          (fun p => p.1.embs)) = (embSorted store).map (fun cp => cp.embs) := by
        rw [show (fun (p : Checkpoint × Checkpoint) => p.1.embs) =
          (fun cp : Checkpoint => cp.embs) ∘ Prod.fst from rfl,
          ← List.map_map, hfst]
      have hmetas : (((embSorted store).zip (metaSorted store)).map
          (fun p => p.2.metas)) = (metaSorted store).map (fun cp => cp.metas) := by
        rw [show (fun (p : Checkpoint × Checkpoint) => p.2.metas) =
          (fun cp : Checkpoint => cp.metas) ∘ Prod.snd from rfl,
          ← List.map_map, hsnd]
      have hsum1 :
          ((embSorted store).map (fun cp => cp.embs.length)).sum =
            (store.map (fun cp => cp.embs.length)).sum :=
        ((embSorted_perm store).map _).sum_eq
      have hsum2 :
          ((metaSorted store).map (fun cp => cp.metas.length)).sum =
            (store.map (fun cp => cp.metas.length)).sum :=
        ((metaSorted_perm store).map _).sum_eq
      have hcongr : store.map (fun cp => cp.embs.length) =
          store.map (fun cp => cp.metas.length) :=
        List.map_congr_left hwf
      rw [← hmd, ← hidx]
      simp only [hmetas, hembs, List.length_flatten, List.map_map]
      calc ((metaSorted store).map (List.length ∘ fun cp => cp.metas)).sum
          = ((metaSorted store).map (fun cp => cp.metas.length)).sum := rfl
        _ = (store.map (fun cp => cp.metas.length)).sum := hsum2
        _ = (store.map (fun cp => cp.embs.length)).sum := by rw [hcongr]
        _ = ((embSorted store).map (fun cp => cp.embs.length)).sum := hsum1.symm
        _ = ((embSorted store).map (List.length ∘ fun cp => cp.embs)).sum := rfl
    · cases hbuild

/-! ## Claim theorems -/

set_option maxRecDepth 100000 in
/-- **C1** (code bug).  The spec requires `combine_batches` to assemble
the final matrix strictly in ascending order of the batches' ordinal
numbers, never by file-listing order.  The code sorts the checkpoint
*filenames* lexicographically (`sorted(glob(...))`,
`free_streaming_processor.py:217-218`), so on the ten-batch directory
`c1store` (ordinals 2–11, exactly what a 10 000-record run at the
default batch size leaves behind) batches 10 and 11 are merged before
batch 2: the merge order is `[10, 11, 2, …, 9]`, not the ascending
ordinal order `[2, …, 11]`. -/
theorem combine_merge_order_not_ordinal :
    c1store.map (fun cp => cp.ordinal) = [2, 3, 4, 5, 6, 7, 8, 9, 10, 11] ∧
    mergeOrder c1store = [10, 11, 2, 3, 4, 5, 6, 7, 8, 9] ∧
    mergeOrder c1store ≠ [2, 3, 4, 5, 6, 7, 8, 9, 10, 11] := by
  refine ⟨by decide, by decide, by decide⟩

/-- **C2** (confirmed).  For every embedding provider satisfying the
one-vector-per-text interface contract, every batch size and every input
feature sequence, a successful pipeline run followed by a successful
merge produces a metadata store whose length equals the index's total
vector count. -/
theorem metadata_count_eq_total_vectors
    (encode : List String → Except Unit (List Vec))
    (henc : ∀ ts r, encode ts = .ok r → r.length = ts.length)
    (batch_size : Nat) (features : List Feature) (disk : List Checkpoint)
    (count : Nat)
    (hrun : process_streaming encode batch_size features = .ok (disk, count))
    (idx : FIndex) (md : List RagDoc)
    (hbuild : combine_batches disk = some (idx, md)) :
    md.length = idx.vecs.length :=
  combine_batches_len (process_streaming_wf henc hrun) hbuild

set_option maxRecDepth 100000 in
/-- Witness for `metadata_count_eq_total_vectors`: a concrete two-record
run at batch size 1 through build and merge. -/
theorem metadata_count_eq_total_vectors_witness :
    (∀ ts r, encodeZero ts = .ok r → r.length = ts.length) ∧
    process_streaming encodeZero 1 [recB, recC] =
      .ok ([⟨1, [[0]], [feature_to_rag_content recC]⟩], 2) ∧
    combine_batches [⟨1, [[0]], [feature_to_rag_content recC]⟩] =
      some (⟨1, [[0]]⟩, [feature_to_rag_content recC]) ∧
    ([feature_to_rag_content recC] : List RagDoc).length =
      (⟨1, [[0]]⟩ : FIndex).vecs.length :=
  ⟨fun ts r h => by
      simp only [encodeZero, Except.ok.injEq] at h
      rw [← h]; simp,
   by decide, by decide,
   metadata_count_eq_total_vectors encodeZero
     (fun ts r h => by
       simp only [encodeZero, Except.ok.injEq] at h
       rw [← h]; simp)
     1 [recB, recC] [⟨1, [[0]], [feature_to_rag_content recC]⟩] 2 (by decide)
     ⟨1, [[0]]⟩ [feature_to_rag_content recC] (by decide)⟩

set_option maxRecDepth 100000 in
/-- **C3** (code bug).  The spec requires `query(text, k)` with
`k > total_vectors` to return exactly `total_vectors` results, dropping
any retrieved position outside the metadata store's bounds.  FAISS pads
the label array with `-1` when `k` exceeds `ntotal`; the guard
`if idx < len(texts)` (`app.py:145`) accepts `-1`, and Python's negative
indexing turns `texts[-1]` into the *last* metadata entry, so on a
3-vector index with `k = 5` the code returns five contents, the last
document duplicated three times — not three results with the invalid
positions dropped. -/
theorem query_overlong_k_returns_k_padded :
    stC3.index.vecs.length = 3 ∧
    (retrieve_documents stC3 "any query" 5).length = 5 ∧
    retrieve_documents stC3 "any query" 5 =
      [(docOf "a").content, (docOf "b").content, (docOf "c").content,
       (docOf "c").content, (docOf "c").content] := by
  refine ⟨by decide, by decide, by decide⟩

set_option maxRecDepth 100000 in
/-- **C4** (counterexample).  The spec requires the skipped-record count
to be recorded and reported to the caller at stream end ("1 recorded
ParseFault").  On the synthetic 100-valid/1-malformed stream the code's
`except json.JSONDecodeError: pass` records nothing: the only count the
function surfaces (`feature_count`, printed at line 130) is the emitted
count 100, and the skipped count 1 appears nowhere in its output. -/
theorem skipped_count_not_reported :
    (stream_geojson_features scenarioParse scenarioLines).emitted.length = 100 ∧
    (stream_geojson_features scenarioParse scenarioLines).parseFaults = 1 ∧
    reportedCounts (stream_geojson_features scenarioParse scenarioLines) = [100] ∧
    (stream_geojson_features scenarioParse scenarioLines).parseFaults ∉
      reportedCounts (stream_geojson_features scenarioParse scenarioLines) := by
  refine ⟨by decide, by decide, by decide, by decide⟩

set_option maxRecDepth 100000 in
/-- **C4** (amended).  A buffered record that fails to parse is
*silently* skipped without aborting the stream and parsing resumes with
the next buffer; the emitted-record count always equals the number of
yielded features, and on the 100-valid/1-malformed stream the code
emits exactly 100 records and hits the skip branch exactly once — but
the only terminal count surfaced is the emitted count. -/
theorem stream_skips_silently :
    (∀ (parse : String → Option Feature) (lines : List String),
      (stream_geojson_features parse lines).emitted.length =
        (stream_geojson_features parse lines).feature_count) ∧
    (stream_geojson_features scenarioParse scenarioLines).emitted.length = 100 ∧
    (stream_geojson_features scenarioParse scenarioLines).feature_count = 100 ∧
    (stream_geojson_features scenarioParse scenarioLines).parseFaults = 1 ∧
    reportedCounts (stream_geojson_features scenarioParse scenarioLines) =
      [(stream_geojson_features scenarioParse scenarioLines).feature_count] := by
  refine ⟨fun parse lines => streamLoop_emitted_eq_count parse lines _ rfl,
    by decide, by decide, by decide, by decide⟩

/-- **C5** (counterexample).  The spec requires checkpoint files to be
deleted only after both final artifacts are written (and verified).  In
`combine_batches` each `os.remove` happens inside the loading loop,
before `faiss.write_index`/`json.dump` run: already on a one-checkpoint
directory whose merge succeeds, the deletions precede both writes. -/
theorem checkpoints_removed_before_write :
    ¬ removesAfterWrites (combineTrace c5store) ∧
    (combine_batches c5store).isSome = true := by
  refine ⟨by decide, by decide⟩

/-- **C5** (amended).  For every checkpoint directory, the effect trace
of `combine_batches` splits into a prefix containing no artifact write
(each batch's load immediately followed by the removal of its two
files) and a suffix containing no removal (the two final writes, when
the merge succeeds); there is no round-trip verification step at all,
so every checkpoint deletion precedes every final write. -/
theorem merge_removes_precede_writes (store : List Checkpoint) :
    ∃ pre post, combineTrace store = pre ++ post ∧
      (∀ e ∈ pre, e.isWrite = false) ∧ (∀ e ∈ post, e.isRemove = false) := by
  simp only [combineTrace]
  refine ⟨_, _, rfl, ?_, ?_⟩
  · intro e he
    simp only [List.mem_flatten, List.mem_map] at he
    obtain ⟨l, ⟨p, _, rfl⟩, he⟩ := he
    simp only [List.mem_cons, List.not_mem_nil, or_false] at he
    rcases he with rfl | rfl | rfl <;> rfl
  · intro e he
    split at he
    · simp only [List.mem_cons, List.not_mem_nil, or_false] at he
      rcases he with rfl | rfl <;> rfl
    · cases he

/-- **C6** (counterexample).  The spec requires a provider failure to be
retried with bounded exponential backoff and, once retries are
exhausted, the batch marked failed and the run to continue.  With a
provider that fails every call, a three-record run at batch size 2
aborts with the propagated exception instead of completing with a
failure report: the final-batch `encode` call sits outside any `try`
block. -/
theorem provider_failure_aborts_run :
    process_streaming alwaysFailEncode 2 [recA, recB, recC] = .error () := by
  decide

/-- **C6** (amended).  There is no retry/backoff mechanism: a provider
failure on a full mid-stream batch is swallowed by the per-feature
exception handler (the buffer is kept and simply resubmitted, one
document larger, on the next feature), no batch is ever marked failed,
and a provider failure when encoding the final buffered batch
propagates and aborts the whole run — with an always-failing provider,
every non-empty input aborts with the provider's exception. -/
theorem no_retry_final_batch_failure_aborts
    (batch_size : Nat) (features : List Feature) (h : features ≠ []) :
    process_streaming alwaysFailEncode batch_size features = .error () := by
  simp only [process_streaming]
  rw [foldl_alwaysFail_texts]
  cases features with
  | nil => exact absurd rfl h
  | cons f fs => simp [alwaysFailEncode]

/-- Witness for `no_retry_final_batch_failure_aborts` at a one-record
input. -/
theorem no_retry_final_batch_failure_aborts_witness :
    ([recA] : List Feature) ≠ [] ∧
    process_streaming alwaysFailEncode 1000 [recA] = .error () :=
  ⟨by decide, no_retry_final_batch_failure_aborts 1000 [recA] (by decide)⟩

set_option maxRecDepth 100000 in
/-- **C7** (counterexample).  The spec says a Record whose owner field
is absent resolves to the documented default and the "owned by X"
fragment is then omitted.  Record B (`{id:"B", voltage:"Unknown"}`) has
no `OWNER` key, so the code's default `'Not Available'` is used — but
the omission guard compares against `['NOT AVAILABLE', 'Unknown']`
only, which the mixed-case default fails to match, so the fragment
"The line is owned by Not Available." is *included*. -/
theorem absent_owner_fragment_included :
    (recB.properties.getD []).lookup "OWNER" = none ∧
    (feature_to_rag_content recB).owner = .vStr "Not Available" ∧
    strContains (feature_to_rag_content recB).content "The line is owned by" =
      true := by
  refine ⟨by decide, by decide, by decide⟩

set_option maxRecDepth 100000 in
/-- **C7** (amended).  The owned-by fragment is omitted exactly when the
resolved owner is the literal `'NOT AVAILABLE'` or `'Unknown'`; the
absent-owner default `'Not Available'` does not match and its fragment
is included.  The three scenario Records canonicalize to the explicit
non-empty contents below, which differ (beyond the record id) exactly
in the voltage and owned-by fragments. -/
theorem canonicalizer_three_records :
    (feature_to_rag_content recA).content =
      "Transmission Line A is a Transmission Line electrical power line. The line status is Unknown. It operates at 230 volts in the Unknown voltage class. The line is owned by X. This is electrical grid infrastructure for power transmission and control." ∧
    (feature_to_rag_content recB).content =
      "Transmission Line B is a Transmission Line electrical power line. The line status is Unknown. It operates in the Unknown voltage class. The line is owned by Not Available. This is electrical grid infrastructure for power transmission and control." ∧
    (feature_to_rag_content recC).content =
      "Transmission Line C is a Transmission Line electrical power line. The line status is Unknown. It operates in the Unknown voltage class. This is electrical grid infrastructure for power transmission and control." ∧
    (feature_to_rag_content recA).content ≠ "" ∧
    (feature_to_rag_content recB).content ≠ "" ∧
    (feature_to_rag_content recC).content ≠ "" := by
  refine ⟨by decide, by decide, by decide, by decide, by decide, by decide⟩

/-- **C8** (confirmed).  The canonicalizer is referentially transparent
and free of hidden state: its output is a function of nothing but the
values of the ten property keys it reads.  Two features agreeing on
those lookups — whatever their other properties, their geometry or any
other top-level member — canonicalize to identical Documents (and in
particular identical `content`); determinism on a single Record is the
special case `f = g`. -/
theorem canonicalizer_referentially_transparent
    (f g : Feature)
    (h : ∀ key ∈ ragKeys, (f.properties.getD []).lookup key =
      (g.properties.getD []).lookup key) :
    feature_to_rag_content f = feature_to_rag_content g := by
  have hID := h "ID" (by simp [ragKeys])
  have hOBJ := h "OBJECTID" (by simp [ragKeys])
  have hTYPE := h "TYPE" (by simp [ragKeys])
  have hSTATUS := h "STATUS" (by simp [ragKeys])
  have hVOLT := h "VOLTAGE" (by simp [ragKeys])
  have hVC := h "VOLT_CLASS" (by simp [ragKeys])
  have hOWNER := h "OWNER" (by simp [ragKeys])
  have hS1 := h "SUB_1" (by simp [ragKeys])
  have hS2 := h "SUB_2" (by simp [ragKeys])
  have hLEN := h "SHAPE__Len" (by simp [ragKeys])
  simp only [feature_to_rag_content, pget, hID, hOBJ, hTYPE, hSTATUS, hVOLT,
    hVC, hOWNER, hS1, hS2, hLEN]

/-- Witness for `canonicalizer_referentially_transparent`: two features
differing in junk properties and non-`properties` members. -/
theorem canonicalizer_referentially_transparent_witness :
    (∀ key ∈ ragKeys, (featWitnessA.properties.getD []).lookup key =
      (featWitnessB.properties.getD []).lookup key) ∧
    feature_to_rag_content featWitnessA = feature_to_rag_content featWitnessB :=
  ⟨by decide,
   canonicalizer_referentially_transparent featWitnessA featWitnessB (by decide)⟩

/-- **C9** (counterexample).  The spec requires a query-vector/index
dimension mismatch to be checked explicitly at query time and reported
as a fatal ConfigurationFault.  `retrieve_documents` performs no such
check: the mismatch surfaces as the exception FAISS raises inside the
`try` block, the blanket `except` at `app.py:154` catches it, and the
caller receives the plain empty list — indistinguishable from a benign
no-result answer. -/
theorem dimension_mismatch_silently_swallowed :
    (stC9.embed "any query").length ≠ stC9.index.d ∧
    retrieveE stC9 "any query" 5 = .error () ∧
    retrieve_documents stC9 "any query" 5 = [] := by
  refine ⟨by decide, by decide, by decide⟩

/-- **C9** (amended).  There is no explicit dimension check: for every
state whose query embedding's length differs from the index dimension,
the search call raises, the blanket handler swallows the exception, and
the query returns the empty list instead of reporting a fault. -/
theorem dimension_mismatch_returns_empty
    (st : AppState) (query : String) (k : Nat)
    (h : (st.embed query).length ≠ st.index.d) :
    retrieveE st query k = .error () ∧ retrieve_documents st query k = [] := by
  have hs : faissSearch st.index (st.embed query) k = .error () := by
    simp [faissSearch, h]
  have he : retrieveE st query k = .error () := by
    simp only [retrieveE, hs, bind, Except.bind]
  refine ⟨he, ?_⟩
  cases hrag : st.ragAvailable <;> simp [retrieve_documents, he, hrag]

/-- Witness for `dimension_mismatch_returns_empty` at the concrete
mismatched state `stC9`. -/
theorem dimension_mismatch_returns_empty_witness :
    (stC9.embed "q").length ≠ stC9.index.d ∧
    (retrieveE stC9 "q" 5 = .error () ∧ retrieve_documents stC9 "q" 5 = []) :=
  ⟨by decide, dimension_mismatch_returns_empty stC9 "q" 5 (by decide)⟩

/-- **C10** (confirmed).  `retrieve_documents` is total: every internal
failure path ends at the blanket `except` and returns a list (never a
propagated exception); the result is `[]` whenever the RAG state is
unavailable, contains at most `k` entries, and every returned string is
the `content` of some entry of the loaded metadata sequence. -/
theorem retrieve_documents_total (st : AppState) (query : String) (k : Nat) :
    (st.ragAvailable = false → retrieve_documents st query k = []) ∧
    (retrieve_documents st query k).length ≤ k ∧
    ∀ s ∈ retrieve_documents st query k, ∃ d ∈ st.texts, s = d.content := by
  have hmain : retrieve_documents st query k = [] ∨
      ∃ labels docs, labels.length ≤ k ∧
        gatherDocs st.texts labels = .ok docs ∧
        retrieve_documents st query k = docs := by
    unfold retrieve_documents
    cases hrag : st.ragAvailable with
    | false => left; rfl
    | true =>
      simp only [Bool.not_true, Bool.false_eq_true, if_false]
      cases hre : retrieveE st query k with
      | error e => left; rfl
      | ok docs =>
        right
        unfold retrieveE at hre
        cases hfs : faissSearch st.index (st.embed query) k with
        | error e =>
          rw [hfs] at hre
          simp only [bind, Except.bind] at hre
          cases hre
        | ok labels =>
          rw [hfs] at hre
          simp only [bind, Except.bind] at hre
          refine ⟨labels, docs, ?_, hre, rfl⟩
          unfold faissSearch at hfs
          split at hfs
          · cases hfs
          · rw [Except.ok.injEq] at hfs
            rw [← hfs]
            simp
  rcases hmain with hnil | ⟨labels, docs, hlab, hg, heq⟩
  · exact ⟨fun _ => hnil, by simp [hnil], by simp [hnil]⟩
  · obtain ⟨hlen, hmem⟩ := gatherDocs_ok st.texts labels docs hg
    refine ⟨fun hrag => by simp [retrieve_documents, hrag], ?_, ?_⟩
    · rw [heq]; exact hlen.trans hlab
    · rw [heq]; exact hmem

/-- Witness for `retrieve_documents_total` at the concrete loaded state
`stC3` with `k = 2`. -/
theorem retrieve_documents_total_witness :
    (stC3.ragAvailable = false → retrieve_documents stC3 "any query" 2 = []) ∧
    (retrieve_documents stC3 "any query" 2).length ≤ 2 ∧
    ∀ s ∈ retrieve_documents stC3 "any query" 2, ∃ d ∈ stC3.texts,
      s = d.content :=
  retrieve_documents_total stC3 "any query" 2

end ClarityGrid
